import Mathlib

/-!
Verification of the data-parsing and parameter-plumbing layer of DeepCombDTI
(file `DeepCombDTI/utils.py`).  CSV files are modelled as already-read
tables: `pd.read_csv` of the DTI file yields rows holding a compound id, a
protein id and an integer label; the drug and protein files yield rows
holding an index identifier plus named string cells.  Python dictionaries
appear as association lists (later keys overwrite earlier ones), numpy's
float64 conversion of strings as rational-number parsing, and every Python
exception as `Except.error`.
-/

/-- A row of the DTI interaction table (`pd.read_csv(dti_dir)`, utils.py
line 31) with the columns `Compound_ID`, `Protein_ID` and integer `Label`
(lines 26-28); `read_csv` parses the numeric label column to integers. -/
structure DTIRow where
  drug : String
  protein : String
  label : Int
deriving DecidableEq

/-- A row of a drug or protein table (`pd.read_csv(..., index_col=...)`,
utils.py lines 32-33): the index identifier plus the named feature cells,
each cell a tab-delimited string. -/
structure FeatRow where
  id : String
  cells : List (String × String)
deriving DecidableEq

/-- Selection of one named cell from a row, as `df[col]` does per row. -/
def lookupCell (c : String) : List (String × String) → Option String
  | [] => none
  | (c', v) :: rest => if c' = c then some v else lookupCell c rest

/-- Mapping a fallible function over a list, failing on the first `none`
(the model of an eager pandas/python map that can raise). -/
def optionMapList (f : α → Option β) : List α → Option (List β)
  | [] => some []
  | x :: xs =>
    match f x with
    | none => none
    | some y => (optionMapList f xs).map (fun ys => y :: ys)

/-- Mapping a fallible computation over a list, propagating the first
raised exception. -/
def exceptMap (f : α → Except String β) : List α → Except String (List β)
  | [] => .ok []
  | x :: xs =>
    match f x with
    | .error e => .error e
    | .ok y =>
      match exceptMap f xs with
      | .error e => .error e
      | .ok ys => .ok (y :: ys)

/-- Turning an optional value into an exception-raising access, as a failed
dict/column access raises in Python. -/
def req (o : Option α) (msg : String) : Except String α :=
  match o with
  | none => .error msg
  | some a => .ok a

/-- Whether a computation finished without raising. -/
def isOkE : Except String α → Bool
  | .ok _ => true
  | .error _ => false

/-- Lookup in a Python dict built with `.to_dict()` from an association
list: a later pair with the same key overwrites an earlier one. -/
def pyDictGet (pairs : List (String × α)) (k : String) : Option α :=
  match pairs with
  | [] => none
  | (k', v) :: rest =>
    match pyDictGet rest k with
    | some w => some w
    | none => if k' = k then some v else none

/-- Splitting a character list at every occurrence of the separator;
the empty list yields one empty group, as `"".split(sep)` yields `[""]`. -/
def splitChars (sep : Char) : List Char → List (List Char)
  | [] => [[]]
  | c :: cs =>
    match splitChars sep cs with
    | [] => [[]]
    | grp :: rest => if c = sep then [] :: grp :: rest else (c :: grp) :: rest

/-- Python `s.split(sep)` for a one-character separator, as used with
`"\t"` (utils.py lines 39, 43) and `","` (lines 156-158). -/
def pySplit (sep : Char) (s : String) : List String :=
  (splitChars sep s.toList).map (fun cs => String.mk cs)

/-- Numeric value of a decimal digit character. -/
def digitVal (c : Char) : Option Nat :=
  if '0' ≤ c ∧ c ≤ '9' then some (c.toNat - '0'.toNat) else none

/-- Longest prefix of decimal digits, with the remaining characters. -/
def takeDigits : List Char → List Nat × List Char
  | [] => ([], [])
  | c :: cs =>
    match digitVal c with
    | some d =>
      let p := takeDigits cs
      (d :: p.1, p.2)
    | none => ([], c :: cs)

/-- Natural number denoted by a digit sequence. -/
def natOfDigits (ds : List Nat) : Nat := ds.foldl (fun a d => a * 10 + d) 0

/-- Fractional value denoted by the digits after a decimal point. -/
def fracOfDigits (ds : List Nat) : Rat := (natOfDigits ds : Rat) / (10 : Rat) ^ ds.length

/-- Unsigned decimal numeral: digits with an optional fractional part,
at least one digit in total; anything else fails. -/
def parseUnsignedFloat (cs : List Char) : Option Rat :=
  let p := takeDigits cs
  match p.2 with
  | [] => if p.1.isEmpty then none else some (natOfDigits p.1 : Rat)
  | '.' :: rest =>
    let q := takeDigits rest
    if q.2.isEmpty ∧ ¬(p.1.isEmpty ∧ q.1.isEmpty) then
      some ((natOfDigits p.1 : Rat) + fracOfDigits q.1)
    else none
  | _ => none

/-- Signed decimal numeral. -/
def parseFloatChars : List Char → Option Rat
  | '-' :: cs => (parseUnsignedFloat cs).map (fun q => -q)
  | '+' :: cs => parseUnsignedFloat cs
  | cs => parseUnsignedFloat cs

/-- Model of Python `float(s)` and of numpy's string-to-float64 conversion
(utils.py lines 40, 43), restricted to plain decimal numerals with an
optional sign and fractional part; scientific notation, `inf`/`nan` and
surrounding whitespace are outside the scope of the model, and `none`
models the raised `ValueError`. -/
def parseFloat? (s : String) : Option Rat := parseFloatChars s.toList

/-- Digit-sequence accumulator for integer parsing; any non-digit fails. -/
def digitsToNat (acc : Nat) : List Char → Option Nat
  | [] => some acc
  | c :: cs =>
    match digitVal c with
    | some d => digitsToNat (acc * 10 + d) cs
    | none => none

/-- Non-empty unsigned decimal integer numeral. -/
def parseNatChars : List Char → Option Nat
  | [] => none
  | cs => digitsToNat 0 cs

/-- Signed decimal integer numeral. -/
def parseIntChars : List Char → Option Int
  | '-' :: cs => (parseNatChars cs).map (fun n => -(n : Int))
  | '+' :: cs => (parseNatChars cs).map (fun n => (n : Int))
  | cs => (parseNatChars cs).map (fun n => (n : Int))

/-- Model of Python `int(s)` (utils.py lines 156-158): an optional sign
followed by decimal digits; `none` models the raised `ValueError`. -/
def parseInt? (s : String) : Option Int := parseIntChars s.toList

/-- Tab-splitting of a feature cell, `fp.split("\t")` (utils.py line 39). -/
def splitTab (s : String) : List String := pySplit '\t' s

/-- Tab-splitting followed by float conversion of every piece,
`[float(i) for i in seq.split("\t")]` (utils.py line 43). -/
def parseTabFloats (s : String) : Option (List Rat) :=
  optionMapList parseFloat? (splitTab s)

/-- Column selection `df[col]` on an indexed table: the (identifier, cell)
pairs of the column, provided every row carries the column; a missing
column models the pandas `KeyError`. -/
def getColumn (tbl : List FeatRow) (c : String) : Option (List (String × String)) :=
  optionMapList (fun r => (lookupCell c r.cells).map (fun v => (r.id, v))) tbl

/-- Drug-feature extraction for one requested feature name (utils.py lines
39-40): the column is selected and each cell split on tabs
(`drug_df[drug_vec].map(lambda fp: fp.split("\t")).to_dict()`), every
interaction row's drug id is looked up in the resulting dict, and only then
does `np.array(..., dtype=np.float64)` convert the looked-up strings. -/
def drugFeature (dti_df : List DTIRow) (drug_df : List FeatRow) (drug_vec : String) :
    Except String (List (List Rat)) :=
  match req (getColumn drug_df drug_vec) "KeyError: drug feature column" with
  | .error e => .error e
  | .ok col =>
    match exceptMap (fun row =>
        req (pyDictGet (col.map (fun p => (p.1, splitTab p.2))) row.drug)
          "KeyError: drug id") dti_df with
    | .error e => .error e
    | .ok strss =>
      exceptMap (fun strs =>
        req (optionMapList parseFloat? strs) "ValueError: could not convert string to float") strss

/-- Protein-feature extraction (utils.py lines 43-44): the protein column
is selected and every cell of it is split and float-converted eagerly
(`protein_df[prot_vec].map(lambda seq: [float(i) for i in seq.split("\t")]).to_dict()`),
then every interaction row's protein id is looked up in the dict. -/
def proteinFeature (dti_df : List DTIRow) (protein_df : List FeatRow) (prot_vec : String) :
    Except String (List (List Rat)) :=
  match req (getColumn protein_df prot_vec) "KeyError: protein feature column" with
  | .error e => .error e
  | .ok col =>
    match exceptMap (fun p =>
        (req (parseTabFloats p.2) "ValueError: could not convert string to float").map
          (fun l => (p.1, l))) col with
    | .error e => .error e
    | .ok prot_dic =>
      exceptMap (fun row => req (pyDictGet prot_dic row.protein) "KeyError: protein id") dti_df

/-- The feature-building loop of `parse_data` (utils.py lines 36-47): for
each requested drug feature name in order, the drug feature array is
appended and the protein feature array immediately after it. -/
def parseFeatures (dti_df : List DTIRow) (drug_df protein_df : List FeatRow)
    (prot_vec : String) : List String → Except String (List (List (List Rat)))
  | [] => .ok []
  | v :: vs =>
    match drugFeature dti_df drug_df v with
    | .error e => .error e
    | .ok df =>
      match proteinFeature dti_df protein_df prot_vec with
      | .error e => .error e
      | .ok pf =>
        match parseFeatures dti_df drug_df protein_df prot_vec vs with
        | .error e => .error e
        | .ok rest => .ok (df :: pf :: rest)

/-- The dictionary `{"features": ..., "label": ...}` returned by
`parse_data` (utils.py lines 22, 54). -/
structure ParseResult where
  features : List (List (List Rat))
  label : List Int
deriving DecidableEq

/-- Model of `parse_data` (utils.py lines 21-54).  The three directory
arguments are modelled by the tables `pd.read_csv` reads from them;
`drug_lens` and `prot_len` are accepted and ignored exactly as in the
source, and `parsing=False` short-circuits before any table is touched. -/
def parse_data (dti_dir : List DTIRow) (drug_dir protein_dir : List FeatRow)
    (drug_vecs : List String) (drug_lens : Option (List Int)) (prot_vec : String)
    (prot_len : Int) (parsing : Bool := true) : Except String ParseResult :=
  if !parsing then .ok ⟨[], []⟩
  else
    match parseFeatures dti_dir drug_dir protein_dir prot_vec drug_vecs with
    | .error e => .error e
    | .ok fs => .ok ⟨fs, dti_dir.map (fun r => r.label)⟩

/-- Parsing of one comma-separated layer-size string,
`list(map(int, layers.split(',')))` (utils.py lines 156-158); a piece that
is not an integer numeral raises `ValueError`. -/
def parseLayers (s : String) : Except String (List Int) :=
  exceptMap (fun t => req (parseInt? t) "ValueError: invalid literal for int") (pySplit ',' s)

/-- Python `zip` of four lists: truncated to the shortest list. -/
def zip4 : List α → List β → List γ → List δ → List (α × β × γ × δ)
  | a :: as, b :: bs, c :: cs, d :: ds => (a, b, c, d) :: zip4 as bs cs ds
  | _, _, _, _ => []

/-- Insertion into a Python dict: an existing key keeps its position and
gets the new value, a new key is appended at the end. -/
def dictInsert (k : String) (v : α) : List (String × α) → List (String × α)
  | [] => [(k, v)]
  | (k', v') :: rest =>
    if k' = k then (k, v) :: rest else (k', v') :: dictInsert k v rest

/-- The command-line arguments of `get_args` (utils.py lines 56-121), with
each optional argument's default value.  The three directory positionals
and the test directory lists are modelled by the tables read from those
paths; `--drug-vecs` has the Python default `""`, over which the feature
loop iterates zero times, modelled as the empty list. -/
structure Args where
  dti_dir : List DTIRow
  drug_dir : List FeatRow
  protein_dir : List FeatRow
  parsing_train : Bool := true
  test_name : Option (List String) := none
  test_dti_dir : Option (List (List DTIRow)) := none
  test_drug_dir : Option (List (List FeatRow)) := none
  test_protein_dir : Option (List (List FeatRow)) := none
  with_label : Option String := none
  drug_vecs : List String := []
  drug_lens : Option (List Int) := none
  drug_layers_list : Option (List String) := none
  prot_vec : String := ""
  prot_len : Int := 2500
  protein_layers_list : Option (List String) := none
  fc_layers_list : Option (List String) := none
  learning_rate : Rat := 1 / 10000
  n_epoch : Int := 10
  activation : Option String := none
  dropout : Rat := 2 / 10
  batch_size : Int := 32
  decay : Rat := 0
  validation : Bool := false
  predict : Bool := false
  model_output : Option String := none
  output : Option String := none

/-- The `train_params` group (utils.py lines 141-144). -/
structure TrainParams where
  n_epoch : Int
  batch_size : Int
deriving DecidableEq

/-- The `type_params` group (utils.py lines 147-152). -/
structure TypeParams where
  drug_vecs : List String
  drug_lens : Option (List Int)
  prot_vec : String
  prot_len : Int
deriving DecidableEq

/-- The `model_params` group (utils.py lines 155-165), after
`model_params.update(type_params)` merged the four type fields in. -/
structure ModelParams where
  drug_layers_list : List (List Int)
  protein_layers_list : List (List Int)
  fc_layers_list : List (List Int)
  learning_rate : Rat
  decay : Rat
  activation : Option String
  dropout : Rat
  model_output : Option String
  drug_vecs : List String
  drug_lens : Option (List Int)
  prot_vec : String
  prot_len : Int
deriving DecidableEq

/-- The six values returned by `get_params` (utils.py line 184). -/
structure GetParamsResult where
  train_dic : ParseResult
  test_dic : List (String × ParseResult)
  train_params : TrainParams
  type_params : TypeParams
  model_params : ModelParams
  output_file : Option String
deriving DecidableEq

/-- The test-set dict comprehension (utils.py lines 179-182): the zipped
quadruples are parsed left to right with the training `type_params`
(`parsing` keeps its default `True`) and inserted into a Python dict. -/
def buildTestDic (tp : TypeParams) (acc : List (String × ParseResult)) :
    List (String × List DTIRow × List FeatRow × List FeatRow) →
      Except String (List (String × ParseResult))
  | [] => .ok acc
  | (n, ti, td, tpr) :: rest =>
    match parse_data ti td tpr tp.drug_vecs tp.drug_lens tp.prot_vec tp.prot_len true with
    | .error e => .error e
    | .ok r => buildTestDic tp (dictInsert n r acc) rest

/-- Model of `get_params` (utils.py lines 131-184), in the source's
evaluation order: the `model_params` dict literal parses the three layer
lists (iterating `None` raises `TypeError`), then the training data is
parsed, then `zip` requires the four test argument lists (again `None`
raises `TypeError`), and finally the test dict comprehension runs. -/
def get_params (args : Args) : Except String GetParamsResult :=
  (req args.drug_layers_list "TypeError: NoneType is not iterable").bind fun dls =>
  (exceptMap parseLayers dls).bind fun drug_layers =>
  (req args.protein_layers_list "TypeError: NoneType is not iterable").bind fun pls =>
  (exceptMap parseLayers pls).bind fun protein_layers =>
  (req args.fc_layers_list "TypeError: NoneType is not iterable").bind fun fls =>
  (exceptMap parseLayers fls).bind fun fc_layers =>
  (parse_data args.dti_dir args.drug_dir args.protein_dir args.drug_vecs args.drug_lens
      args.prot_vec args.prot_len args.parsing_train).bind fun train_dic =>
  (req args.test_name "TypeError: zip argument is not iterable").bind fun names =>
  (req args.test_dti_dir "TypeError: zip argument is not iterable").bind fun tdtis =>
  (req args.test_drug_dir "TypeError: zip argument is not iterable").bind fun tdrugs =>
  (req args.test_protein_dir "TypeError: zip argument is not iterable").bind fun tprots =>
  (buildTestDic ⟨args.drug_vecs, args.drug_lens, args.prot_vec, args.prot_len⟩ []
      (zip4 names tdtis tdrugs tprots)).bind fun test_dic =>
  .ok ⟨train_dic, test_dic, ⟨args.n_epoch, args.batch_size⟩,
    ⟨args.drug_vecs, args.drug_lens, args.prot_vec, args.prot_len⟩,
    ⟨drug_layers, protein_layers, fc_layers, args.learning_rate, args.decay,
      args.activation, args.dropout, args.model_output,
      args.drug_vecs, args.drug_lens, args.prot_vec, args.prot_len⟩,
    args.output⟩

/-- The per-test-set prediction output consumed by `run_prediction`
(utils.py lines 211-218), a `{"predicted": ..., "label": ...}` entry. -/
structure TestPrediction where
  predicted : List Rat
  label : List Rat
deriving DecidableEq

/-- Model of `np.squeeze` (utils.py lines 213, 218): prediction and label
arrays are modelled after squeezing, as one-dimensional lists, on which
squeeze is the identity. -/
def np_squeeze (xs : List Rat) : List Rat := xs

/-- The wide result table of `run_prediction` (utils.py lines 209-228):
the two-level column labels set via `pd.MultiIndex.from_tuples` and the
column-major data assembled by `pd.concat(..., axis=1)`. -/
structure ResultTable where
  columns : List (String × String)
  data : List (List Rat)
deriving DecidableEq

/-- The result-assembly loop of `run_prediction` (utils.py lines 211-221):
for each test set in order, one `predicted` and one `label` column are
appended, both the data and the two-level column names. -/
def build_result : List (String × TestPrediction) → ResultTable
  | [] => ⟨[], []⟩
  | (name, e) :: rest =>
    let r := build_result rest
    ⟨(name, "predicted") :: (name, "label") :: r.columns,
      np_squeeze e.predicted :: np_squeeze e.label :: r.data⟩

/-- The persistence step of `run_prediction` (utils.py lines 226-229): the
written CSV, as the output path and the table written to it, produced only
when `if output_file:` holds, i.e. when the path is neither `None` nor the
empty string. -/
def run_prediction_output (test_predicted : List (String × TestPrediction))
    (output_file : Option String) : Option (String × ResultTable) :=
  match output_file with
  | none => none
  | some path => if path = "" then none else some (path, build_result test_predicted)

/-- Elementwise correspondence between a list of comma-separated
layer-size strings and the parsed integer lists (utils.py lines 156-158):
same length, and position i of the output is the parse of position i of
the input. -/
def parsesEachLayer (ss : List String) (ls : List (List Int)) : Prop :=
  ls.length = ss.length ∧
  ∀ (i : Nat) (s : String), ss[i]? = some s → ∃ l, parseLayers s = .ok l ∧ ls[i]? = some l

/-- The positive count printed by `parse_data` (utils.py line 52),
`sum(dti_df[label_col])`. -/
def positive_count (dti_df : List DTIRow) : Int := (dti_df.map (fun r => r.label)).sum

/-- The negative count printed by `parse_data` (utils.py line 53),
`dti_df.shape[0] - sum(dti_df[label_col])`. -/
def negative_count (dti_df : List DTIRow) : Int :=
  (dti_df.length : Int) - positive_count dti_df

theorem isOkE_iff {x : Except String α} : isOkE x = true ↔ ∃ a, x = .ok a := by
  cases x <;> simp [isOkE]

theorem req_ok {o : Option α} {msg : String} {a : α} : req o msg = .ok a ↔ o = some a := by
  cases o <;> simp [req]

theorem req_isOk {o : Option α} {msg : String} : isOkE (req o msg) = true ↔ o.isSome = true := by
  cases o <;> simp [req, isOkE]

theorem exceptBind_ok {x : Except String α} {f : α → Except String β} {b : β} :
    x.bind f = .ok b ↔ ∃ a, x = .ok a ∧ f a = .ok b := by
  cases x <;> simp [Except.bind]

theorem isOkE_bind {x : Except String α} {f : α → Except String β} :
    isOkE (x.bind f) = true ↔ ∃ a, x = .ok a ∧ isOkE (f a) = true := by
  cases x <;> simp [Except.bind, isOkE]

theorem exceptMap_isOk {f : α → Except String β} {l : List α} :
    isOkE (exceptMap f l) = true ↔ ∀ x ∈ l, isOkE (f x) = true := by
  induction l with
  | nil => simp [exceptMap, isOkE]
  | cons x xs ih =>
    constructor
    · intro h
      cases hfx : f x with
      | error e =>
        simp only [exceptMap, hfx, isOkE] at h
        exact Bool.noConfusion h
      | ok y =>
        cases hm : exceptMap f xs with
        | error e =>
          simp only [exceptMap, hfx, hm, isOkE] at h
          exact Bool.noConfusion h
        | ok ys =>
          intro z hz
          rcases List.mem_cons.mp hz with rfl | hz'
          · rw [hfx]; rfl
          · exact ih.mp (by rw [hm]; rfl) z hz'
    · intro h
      have hx : isOkE (f x) = true := h x (List.mem_cons_self x xs)
      have hxs : isOkE (exceptMap f xs) = true :=
        ih.mpr (fun z hz => h z (List.mem_cons_of_mem x hz))
      rcases isOkE_iff.mp hx with ⟨y, hy⟩
      rcases isOkE_iff.mp hxs with ⟨ys, hys⟩
      simp only [exceptMap, hy, hys, isOkE]

theorem exceptMap_ok_mem {f : α → Except String β} :
    ∀ {l : List α} {ys : List β}, exceptMap f l = .ok ys → ∀ x ∈ l, ∃ y ∈ ys, f x = .ok y := by
  intro l
  induction l with
  | nil => intro ys _ x hx; cases hx
  | cons a as ih =>
    intro ys h x hx
    cases hfa : f a with
    | error e =>
      simp only [exceptMap, hfa] at h
      exact Except.noConfusion h
    | ok y =>
      cases hm : exceptMap f as with
      | error e =>
        simp only [exceptMap, hfa, hm] at h
        exact Except.noConfusion h
      | ok zs =>
        simp only [exceptMap, hfa, hm, Except.ok.injEq] at h
        subst h
        rcases List.mem_cons.mp hx with rfl | hx'
        · exact ⟨y, List.mem_cons_self _ _, hfa⟩
        · rcases ih hm x hx' with ⟨w, hw, hfw⟩
          exact ⟨w, List.mem_cons_of_mem _ hw, hfw⟩

theorem optionMapList_isSome {f : α → Option β} {l : List α} :
    (optionMapList f l).isSome = true ↔ ∀ x ∈ l, (f x).isSome = true := by
  induction l with
  | nil => simp [optionMapList]
  | cons x xs ih =>
    constructor
    · intro h
      cases hfx : f x with
      | none =>
        simp only [optionMapList, hfx, Option.isSome] at h
        exact Bool.noConfusion h
      | some y =>
        cases hm : optionMapList f xs with
        | none =>
          simp only [optionMapList, hfx, hm, Option.map, Option.isSome] at h
          exact Bool.noConfusion h
        | some ys =>
          intro z hz
          rcases List.mem_cons.mp hz with rfl | hz'
          · rw [hfx]; rfl
          · exact ih.mp (by rw [hm]; rfl) z hz'
    · intro h
      have hx : (f x).isSome = true := h x (List.mem_cons_self x xs)
      have hxs : (optionMapList f xs).isSome = true :=
        ih.mpr (fun z hz => h z (List.mem_cons_of_mem x hz))
      rcases Option.isSome_iff_exists.mp hx with ⟨y, hy⟩
      rcases Option.isSome_iff_exists.mp hxs with ⟨ys, hys⟩
      simp only [optionMapList, hy, hys, Option.map, Option.isSome]

theorem optionMapList_some_forall {f : α → Option β} :
    ∀ {l : List α} {ys : List β}, optionMapList f l = some ys →
      ∀ x ∈ l, ∃ y ∈ ys, f x = some y := by
  intro l
  induction l with
  | nil => intro ys _ x hx; cases hx
  | cons a as ih =>
    intro ys h x hx
    cases hfa : f a with
    | none =>
      simp only [optionMapList, hfa] at h
      exact Option.noConfusion h
    | some y =>
      cases hm : optionMapList f as with
      | none =>
        simp only [optionMapList, hfa, hm, Option.map] at h
        exact Option.noConfusion h
      | some zs =>
        simp only [optionMapList, hfa, hm, Option.map, Option.some.injEq] at h
        subst h
        rcases List.mem_cons.mp hx with rfl | hx'
        · exact ⟨y, List.mem_cons_self _ _, hfa⟩
        · rcases ih hm x hx' with ⟨w, hw, hfw⟩
          exact ⟨w, List.mem_cons_of_mem _ hw, hfw⟩

theorem optionMapList_some_mem {f : α → Option β} :
    ∀ {l : List α} {ys : List β}, optionMapList f l = some ys →
      ∀ y ∈ ys, ∃ x ∈ l, f x = some y := by
  intro l
  induction l with
  | nil =>
    intro ys h y hy
    simp only [optionMapList, Option.some.injEq] at h
    subst h; cases hy
  | cons a as ih =>
    intro ys h y hy
    cases hfa : f a with
    | none =>
      simp only [optionMapList, hfa] at h
      exact Option.noConfusion h
    | some z =>
      cases hm : optionMapList f as with
      | none =>
        simp only [optionMapList, hfa, hm, Option.map] at h
        exact Option.noConfusion h
      | some zs =>
        simp only [optionMapList, hfa, hm, Option.map, Option.some.injEq] at h
        subst h
        rcases List.mem_cons.mp hy with rfl | hy'
        · exact ⟨a, List.mem_cons_self _ _, hfa⟩
        · rcases ih hm y hy' with ⟨x, hx, hfx⟩
          exact ⟨x, List.mem_cons_of_mem _ hx, hfx⟩

theorem pyDictGet_mem {k : String} {v : α} :
    ∀ {pairs : List (String × α)}, pyDictGet pairs k = some v → (k, v) ∈ pairs := by
  intro pairs
  induction pairs with
  | nil => intro h; cases h
  | cons p rest ih =>
    intro h
    obtain ⟨k', w⟩ := p
    cases hrec : pyDictGet rest k with
    | some u =>
      simp only [pyDictGet, hrec] at h
      injection h with h; subst h
      exact List.mem_cons_of_mem _ (ih hrec)
    | none =>
      simp only [pyDictGet, hrec] at h
      by_cases hk : k' = k
      · rw [if_pos hk] at h
        injection h with h; subst h; subst hk
        exact List.mem_cons_self _ _
      · rw [if_neg hk] at h; cases h

theorem getColumn_cell_of_row {tbl : List FeatRow} {c : String} {col : List (String × String)}
    (h : getColumn tbl c = some col) {r : FeatRow} (hr : r ∈ tbl) :
    ∃ cell, lookupCell c r.cells = some cell ∧ (r.id, cell) ∈ col := by
  rcases optionMapList_some_forall h r hr with ⟨p, hp, hfp⟩
  cases hl : lookupCell c r.cells with
  | none => rw [hl] at hfp; cases hfp
  | some cell =>
    rw [hl] at hfp
    injection hfp with h'
    have h2 : (r.id, cell) = p := h'
    exact ⟨cell, rfl, by rw [h2]; exact hp⟩

theorem getColumn_row_of_cell {tbl : List FeatRow} {c : String} {col : List (String × String)}
    (h : getColumn tbl c = some col) {p : String × String} (hp : p ∈ col) :
    ∃ r ∈ tbl, r.id = p.1 ∧ lookupCell c r.cells = some p.2 := by
  rcases optionMapList_some_mem h p hp with ⟨r, hr, hfr⟩
  cases hl : lookupCell c r.cells with
  | none => rw [hl] at hfr; cases hfr
  | some cell =>
    rw [hl] at hfr
    injection hfr with h'
    exact ⟨r, hr, by rw [← h'], by rw [← h', hl]⟩

theorem parseFeatures_ok_spec {dti_df : List DTIRow} {drug_df protein_df : List FeatRow}
    {prot_vec : String} :
    ∀ {vecs : List String} {fs : List (List (List Rat))},
      parseFeatures dti_df drug_df protein_df prot_vec vecs = .ok fs →
      fs.length = 2 * vecs.length ∧
      ∀ i v, vecs[i]? = some v →
        ∃ df pf, drugFeature dti_df drug_df v = .ok df ∧
          proteinFeature dti_df protein_df prot_vec = .ok pf ∧
          fs[2 * i]? = some df ∧ fs[2 * i + 1]? = some pf := by
  intro vecs
  induction vecs with
  | nil =>
    intro fs h
    simp only [parseFeatures, Except.ok.injEq] at h
    subst h
    refine ⟨rfl, ?_⟩
    intro i v hv
    simp at hv
  | cons w ws ih =>
    intro fs h
    cases hd : drugFeature dti_df drug_df w with
    | error e =>
      simp only [parseFeatures, hd] at h
      exact Except.noConfusion h
    | ok df =>
      cases hp : proteinFeature dti_df protein_df prot_vec with
      | error e =>
        simp only [parseFeatures, hd, hp] at h
        exact Except.noConfusion h
      | ok pf =>
        cases hr : parseFeatures dti_df drug_df protein_df prot_vec ws with
        | error e =>
          simp only [parseFeatures, hd, hp, hr] at h
          exact Except.noConfusion h
        | ok rest =>
          simp only [parseFeatures, hd, hp, hr, Except.ok.injEq] at h
          subst h
          obtain ⟨hlen, hidx⟩ := ih hr
          constructor
          · simp only [List.length_cons, hlen]
            ring
          · intro i v hv
            cases i with
            | zero =>
              simp only [List.getElem?_cons_zero, Option.some.injEq] at hv
              subst hv
              exact ⟨df, pf, hd, rfl, by simp, by simp⟩
            | succ j =>
              simp only [List.getElem?_cons_succ] at hv
              obtain ⟨df', pf', h1, h2, h3, h4⟩ := hidx j v hv
              refine ⟨df', pf', h1, by rw [← hp]; exact h2, ?_, ?_⟩
              · have he : 2 * (j + 1) = 2 * j + 1 + 1 := by ring
                rw [he, List.getElem?_cons_succ, List.getElem?_cons_succ]
                exact h3
              · have he : 2 * (j + 1) + 1 = 2 * j + 1 + 1 + 1 := by ring
                rw [he, List.getElem?_cons_succ, List.getElem?_cons_succ]
                exact h4

theorem parse_data_true_eq {dti_df : List DTIRow} {drug_df protein_df : List FeatRow}
    {vecs : List String} {dl : Option (List Int)} {pv : String} {pl : Int} :
    parse_data dti_df drug_df protein_df vecs dl pv pl true =
      match parseFeatures dti_df drug_df protein_df pv vecs with
      | .error e => .error e
      | .ok fs => .ok ⟨fs, dti_df.map (fun row => row.label)⟩ := rfl

theorem parse_data_true_ok {dti_df : List DTIRow} {drug_df protein_df : List FeatRow}
    {vecs : List String} {dl : Option (List Int)} {pv : String} {pl : Int} {r : ParseResult} :
    parse_data dti_df drug_df protein_df vecs dl pv pl true = .ok r ↔
      ∃ fs, parseFeatures dti_df drug_df protein_df pv vecs = .ok fs ∧
        r = ⟨fs, dti_df.map (fun row => row.label)⟩ := by
  rw [parse_data_true_eq]
  cases hpf : parseFeatures dti_df drug_df protein_df pv vecs with
  | error e =>
    constructor
    · intro h
      exact Except.noConfusion h
    · rintro ⟨fs, hfs, -⟩
      exact Except.noConfusion hfs
  | ok fs =>
    constructor
    · intro h
      injection h with h
      exact ⟨fs, rfl, h.symm⟩
    · rintro ⟨fs', hfs', hr⟩
      injection hfs' with e
      subst e
      rw [hr]

/-- C1: on any interaction, drug and protein tables and a non-empty list of
requested drug feature names, a successful `parse_data` run returns a
features list of length `2 * N`, interleaved so that the entry at `2 * i`
is the drug feature array of the i-th requested name (each interaction
row's drug id mapped to its decoded tab-delimited vector) and the entry at
`2 * i + 1` is the corresponding protein feature array. -/
theorem parse_data_interleaves_features
    (dti_dir : List DTIRow) (drug_dir protein_dir : List FeatRow)
    (drug_vecs : List String) (drug_lens : Option (List Int)) (prot_vec : String)
    (prot_len : Int) (r : ParseResult)
    (hne : drug_vecs ≠ [])
    (h : parse_data dti_dir drug_dir protein_dir drug_vecs drug_lens prot_vec prot_len true =
      .ok r) :
    r.features.length = 2 * drug_vecs.length ∧
    ∀ i v, drug_vecs[i]? = some v →
      ∃ df pf, drugFeature dti_dir drug_dir v = .ok df ∧
        proteinFeature dti_dir protein_dir prot_vec = .ok pf ∧
        r.features[2 * i]? = some df ∧ r.features[2 * i + 1]? = some pf := by
  obtain ⟨fs, hpf, hr⟩ := parse_data_true_ok.mp h
  subst hr
  exact parseFeatures_ok_spec hpf

theorem parse_data_interleaves_features_witness :
    (⟨[[[1]], [[0]]], [1]⟩ : ParseResult).features.length = 2 * (["fp"] : List String).length ∧
    ∀ i v, (["fp"] : List String)[i]? = some v →
      ∃ df pf, drugFeature [⟨"A", "X", 1⟩] [⟨"A", [("fp", "1")]⟩] v = .ok df ∧
        proteinFeature [⟨"A", "X", 1⟩] [⟨"X", [("pv", "0")]⟩] "pv" = .ok pf ∧
        (⟨[[[1]], [[0]]], [1]⟩ : ParseResult).features[2 * i]? = some df ∧
        (⟨[[[1]], [[0]]], [1]⟩ : ParseResult).features[2 * i + 1]? = some pf :=
  parse_data_interleaves_features [⟨"A", "X", 1⟩] [⟨"A", [("fp", "1")]⟩]
    [⟨"X", [("pv", "0")]⟩] ["fp"] none "pv" 2500 ⟨[[[1]], [[0]]], [1]⟩
    (by decide) rfl

/-- C3: with parsing disabled, `parse_data` returns the dictionary with an
empty features list and empty label array, for every combination of the
other arguments, without reading any table. -/
theorem parse_data_parsing_disabled
    (dti_dir : List DTIRow) (drug_dir protein_dir : List FeatRow)
    (drug_vecs : List String) (drug_lens : Option (List Int)) (prot_vec : String)
    (prot_len : Int) :
    parse_data dti_dir drug_dir protein_dir drug_vecs drug_lens prot_vec prot_len false =
      .ok ⟨[], []⟩ := rfl

/-- C4: for the drug table with entries A:"1\t2" and B:"3\t4" and the
interaction list [(A,X),(B,X)], the drug feature array produced by
`parse_data` (the first entry of the features list) is [[1,2],[3,4]], in
interaction-row order. -/
theorem parse_data_drug_feature_example :
    ((parse_data [⟨"A", "X", 1⟩, ⟨"B", "X", 0⟩]
        [⟨"A", [("fp", "1\t2")]⟩, ⟨"B", [("fp", "3\t4")]⟩]
        [⟨"X", [("pv", "0")]⟩] ["fp"] none "pv" 2500 true).toOption.bind
      (fun r => r.features[0]?)) = some [[1, 2], [3, 4]] := rfl

/-- C8: the printed positive count plus the printed negative count equals
the number of interaction rows, for every interaction table. -/
theorem printed_counts_sum (dti_df : List DTIRow) :
    positive_count dti_df + negative_count dti_df = (dti_df.length : Int) := by
  simp only [positive_count, negative_count]
  ring

/-- C9: with two or more requested drug feature names, the protein feature
array is recomputed identically on every loop iteration, so all the
odd-indexed entries of a successful `parse_data` result's features list are
equal to one another. -/
theorem parse_data_protein_entries_equal
    (dti_dir : List DTIRow) (drug_dir protein_dir : List FeatRow)
    (drug_vecs : List String) (drug_lens : Option (List Int)) (prot_vec : String)
    (prot_len : Int) (r : ParseResult)
    (hlen : 2 ≤ drug_vecs.length)
    (h : parse_data dti_dir drug_dir protein_dir drug_vecs drug_lens prot_vec prot_len true =
      .ok r) :
    ∀ i j vi vj, drug_vecs[i]? = some vi → drug_vecs[j]? = some vj →
      r.features[2 * i + 1]? = r.features[2 * j + 1]? := by
  obtain ⟨fs, hpf, hr⟩ := parse_data_true_ok.mp h
  subst hr
  obtain ⟨-, hidx⟩ := parseFeatures_ok_spec hpf
  intro i j vi vj hi hj
  obtain ⟨dfi, pfi, _, hpi, _, h4i⟩ := hidx i vi hi
  obtain ⟨dfj, pfj, _, hpj, _, h4j⟩ := hidx j vj hj
  rw [h4i, h4j]
  rw [hpi] at hpj
  injection hpj with e
  rw [e]

theorem parse_data_protein_entries_equal_witness :
    (⟨[[[1]], [[0]], [[1]], [[0]]], [1]⟩ : ParseResult).features[2 * 0 + 1]? =
      (⟨[[[1]], [[0]], [[1]], [[0]]], [1]⟩ : ParseResult).features[2 * 1 + 1]? :=
  parse_data_protein_entries_equal [⟨"A", "X", 1⟩] [⟨"A", [("fp", "1")]⟩]
    [⟨"X", [("pv", "0")]⟩] ["fp", "fp"] none "pv" 2500
    ⟨[[[1]], [[0]], [[1]], [[0]]], [1]⟩ (by decide) rfl 0 1 "fp" "fp" rfl rfl

theorem exceptMap_ok_mem_rev {f : α → Except String β} :
    ∀ {l : List α} {ys : List β}, exceptMap f l = .ok ys → ∀ y ∈ ys, ∃ x ∈ l, f x = .ok y := by
  intro l
  induction l with
  | nil =>
    intro ys h y hy
    simp only [exceptMap, Except.ok.injEq] at h
    subst h; cases hy
  | cons a as ih =>
    intro ys h y hy
    cases hfa : f a with
    | error e =>
      simp only [exceptMap, hfa] at h
      exact Except.noConfusion h
    | ok z =>
      cases hm : exceptMap f as with
      | error e =>
        simp only [exceptMap, hfa, hm] at h
        exact Except.noConfusion h
      | ok zs =>
        simp only [exceptMap, hfa, hm, Except.ok.injEq] at h
        subst h
        rcases List.mem_cons.mp hy with rfl | hy'
        · exact ⟨a, List.mem_cons_self _ _, hfa⟩
        · rcases ih hm y hy' with ⟨x, hx, hfx⟩
          exact ⟨x, List.mem_cons_of_mem _ hx, hfx⟩

theorem drugFeature_ok_parts {dti_df : List DTIRow} {drug_df : List FeatRow} {v : String}
    {df : List (List Rat)} (h : drugFeature dti_df drug_df v = .ok df) :
    ∃ col, getColumn drug_df v = some col ∧
      ∃ strss,
        exceptMap (fun row =>
          req (pyDictGet (col.map (fun p => (p.1, splitTab p.2))) row.drug)
            "KeyError: drug id") dti_df = .ok strss ∧
        exceptMap (fun strs =>
          req (optionMapList parseFloat? strs)
            "ValueError: could not convert string to float") strss = .ok df := by
  unfold drugFeature at h
  cases hc : getColumn drug_df v with
  | none =>
    rw [hc] at h
    exact Except.noConfusion h
  | some col =>
    rw [hc] at h
    have h' : (match exceptMap (fun row =>
        req (pyDictGet (col.map (fun p => (p.1, splitTab p.2))) row.drug)
          "KeyError: drug id") dti_df with
      | .error e => (.error e : Except String (List (List Rat)))
      | .ok strss =>
        exceptMap (fun strs =>
          req (optionMapList parseFloat? strs)
            "ValueError: could not convert string to float") strss) = .ok df := h
    cases hm : exceptMap (fun row =>
        req (pyDictGet (col.map (fun p => (p.1, splitTab p.2))) row.drug)
          "KeyError: drug id") dti_df with
    | error e =>
      rw [hm] at h'
      exact Except.noConfusion h'
    | ok strss =>
      rw [hm] at h'
      exact ⟨col, rfl, strss, hm, h'⟩

theorem proteinFeature_ok_parts {dti_df : List DTIRow} {protein_df : List FeatRow}
    {pv : String} {pf : List (List Rat)} (h : proteinFeature dti_df protein_df pv = .ok pf) :
    ∃ col, getColumn protein_df pv = some col ∧
      ∃ prot_dic,
        exceptMap (fun p =>
          (req (parseTabFloats p.2) "ValueError: could not convert string to float").map
            (fun l => (p.1, l))) col = .ok prot_dic ∧
        exceptMap (fun row =>
          req (pyDictGet prot_dic row.protein) "KeyError: protein id") dti_df = .ok pf := by
  unfold proteinFeature at h
  cases hc : getColumn protein_df pv with
  | none =>
    rw [hc] at h
    exact Except.noConfusion h
  | some col =>
    rw [hc] at h
    have h' : (match exceptMap (fun p =>
        (req (parseTabFloats p.2) "ValueError: could not convert string to float").map
          (fun l => (p.1, l))) col with
      | .error e => (.error e : Except String (List (List Rat)))
      | .ok prot_dic =>
        exceptMap (fun (row : DTIRow) =>
          req (pyDictGet prot_dic row.protein) "KeyError: protein id") dti_df) = .ok pf := h
    cases hm : exceptMap (fun p =>
        (req (parseTabFloats p.2) "ValueError: could not convert string to float").map
          (fun l => (p.1, l))) col with
    | error e =>
      rw [hm] at h'
      exact Except.noConfusion h'
    | ok prot_dic =>
      rw [hm] at h'
      exact ⟨col, rfl, prot_dic, hm, h'⟩

theorem drugFeature_ok_drug_ids {dti_df : List DTIRow} {drug_df : List FeatRow} {v : String}
    {df : List (List Rat)} (h : drugFeature dti_df drug_df v = .ok df) :
    ∀ row ∈ dti_df, ∃ fr ∈ drug_df, fr.id = row.drug := by
  obtain ⟨col, hc, strss, hm, -⟩ := drugFeature_ok_parts h
  intro row hrow
  obtain ⟨strs, -, hstrs⟩ := exceptMap_ok_mem hm row hrow
  have hget : pyDictGet (col.map (fun p => (p.1, splitTab p.2))) row.drug = some strs :=
    req_ok.mp hstrs
  have hmem := pyDictGet_mem hget
  rcases List.mem_map.mp hmem with ⟨p, hp, he⟩
  obtain ⟨fr, hfr, hid, -⟩ := getColumn_row_of_cell hc hp
  refine ⟨fr, hfr, ?_⟩
  have hfst : p.1 = row.drug := congrArg Prod.fst he
  rw [hid, hfst]

theorem drugFeature_ok_parses {dti_df : List DTIRow} {drug_df : List FeatRow} {v : String}
    {df : List (List Rat)} {col : List (String × String)}
    (hc : getColumn drug_df v = some col)
    (h : drugFeature dti_df drug_df v = .ok df) :
    ∀ row ∈ dti_df, ∀ strs,
      pyDictGet (col.map (fun p => (p.1, splitTab p.2))) row.drug = some strs →
      (optionMapList parseFloat? strs).isSome = true := by
  obtain ⟨col', hc', strss, hm, hp2⟩ := drugFeature_ok_parts h
  rw [hc] at hc'
  injection hc' with e
  subst e
  intro row hrow strs hget
  obtain ⟨strs', hmem', hstrs'⟩ := exceptMap_ok_mem hm row hrow
  have h1 : pyDictGet (col.map (fun p => (p.1, splitTab p.2))) row.drug = some strs' :=
    req_ok.mp hstrs'
  rw [hget] at h1
  injection h1 with e2
  subst e2
  obtain ⟨y, -, hy⟩ := exceptMap_ok_mem hp2 strs hmem'
  have h2 : optionMapList parseFloat? strs = some y := req_ok.mp hy
  rw [h2]
  rfl

theorem proteinFeature_ok_protein_ids {dti_df : List DTIRow} {protein_df : List FeatRow}
    {pv : String} {pf : List (List Rat)} (h : proteinFeature dti_df protein_df pv = .ok pf) :
    ∀ row ∈ dti_df, ∃ fr ∈ protein_df, fr.id = row.protein := by
  obtain ⟨col, hc, dic, hdic, hlk⟩ := proteinFeature_ok_parts h
  intro row hrow
  obtain ⟨val, -, hval⟩ := exceptMap_ok_mem hlk row hrow
  have h1 : pyDictGet dic row.protein = some val := req_ok.mp hval
  have hmem := pyDictGet_mem h1
  obtain ⟨p, hp, hfp⟩ := exceptMap_ok_mem_rev hdic _ hmem
  have hfp' : (req (parseTabFloats p.2) "ValueError: could not convert string to float").map
      (fun l => (p.1, l)) = .ok (row.protein, val) := hfp
  cases hq : parseTabFloats p.2 with
  | none =>
    rw [hq] at hfp'
    simp only [req, Except.map] at hfp'
    exact Except.noConfusion hfp'
  | some l =>
    rw [hq] at hfp'
    simp only [req, Except.map, Except.ok.injEq] at hfp'
    obtain ⟨fr, hfr, hid, -⟩ := getColumn_row_of_cell hc hp
    refine ⟨fr, hfr, ?_⟩
    have hfst : p.1 = row.protein := congrArg Prod.fst hfp'
    rw [hid, hfst]

theorem proteinFeature_ok_cells_parse {dti_df : List DTIRow} {protein_df : List FeatRow}
    {pv : String} {pf : List (List Rat)} (h : proteinFeature dti_df protein_df pv = .ok pf) :
    ∀ fr ∈ protein_df, ∀ cell, lookupCell pv fr.cells = some cell →
      (parseTabFloats cell).isSome = true := by
  obtain ⟨col, hc, dic, hdic, -⟩ := proteinFeature_ok_parts h
  intro fr hfr cell hcell
  obtain ⟨cell', hcell', hp⟩ := getColumn_cell_of_row hc hfr
  rw [hcell] at hcell'
  injection hcell' with e
  subst e
  obtain ⟨d, -, hfd⟩ := exceptMap_ok_mem hdic _ hp
  have hfd' : (req (parseTabFloats cell) "ValueError: could not convert string to float").map
      (fun l => (fr.id, l)) = .ok d := hfd
  cases hq : parseTabFloats cell with
  | none =>
    rw [hq] at hfd'
    simp only [req, Except.map] at hfd'
    exact Except.noConfusion hfd'
  | some l =>
    rfl

theorem parseFeatures_ok_forall {dti_df : List DTIRow} {drug_df protein_df : List FeatRow}
    {pv : String} :
    ∀ {vecs : List String} {fs : List (List (List Rat))},
      parseFeatures dti_df drug_df protein_df pv vecs = .ok fs →
      (∀ v ∈ vecs, ∃ df, drugFeature dti_df drug_df v = .ok df) ∧
      (vecs ≠ [] → ∃ pf, proteinFeature dti_df protein_df pv = .ok pf) := by
  intro vecs
  induction vecs with
  | nil =>
    intro fs _
    refine ⟨fun v hv => absurd hv (List.not_mem_nil v), fun hne => absurd rfl hne⟩
  | cons w ws ih =>
    intro fs h
    cases hd : drugFeature dti_df drug_df w with
    | error e =>
      simp only [parseFeatures, hd] at h
      exact Except.noConfusion h
    | ok df =>
      cases hp : proteinFeature dti_df protein_df pv with
      | error e =>
        simp only [parseFeatures, hd, hp] at h
        exact Except.noConfusion h
      | ok pf =>
        cases hr : parseFeatures dti_df drug_df protein_df pv ws with
        | error e =>
          simp only [parseFeatures, hd, hp, hr] at h
          exact Except.noConfusion h
        | ok rest =>
          obtain ⟨ihd, -⟩ := ih hr
          constructor
          · intro v hv
            rcases List.mem_cons.mp hv with rfl | hv'
            · exact ⟨df, hd⟩
            · exact ihd v hv'
          · intro _
            exact ⟨pf, rfl⟩

/-- C2 counterexample: the drug table holds the malformed feature string
"x" for drug B, which no interaction row references; the claim demands a
propagated error, yet `parse_data` succeeds. -/
theorem parse_data_unreferenced_bad_string_ok :
    parseFloat? "x" = none ∧
    parse_data [⟨"A", "X", 1⟩] [⟨"A", [("fp", "1")]⟩, ⟨"B", [("fp", "x")]⟩]
      [⟨"X", [("pv", "0")]⟩] ["fp"] none "pv" 2500 true =
      .ok ⟨[[[1]], [[0]]], [1]⟩ :=
  ⟨by decide, rfl⟩

/-- C2 (amended): with a non-empty list of requested drug feature names,
`parse_data` propagates an error whenever an interaction row's drug or
protein identifier is absent from the corresponding table, or any protein
table feature string, or the feature string looked up for a drug that some
interaction row references, cannot be parsed as floats; malformed feature
strings of drugs referenced by no interaction row cause no failure. -/
theorem parse_data_error_conditions
    (dti_dir : List DTIRow) (drug_dir protein_dir : List FeatRow)
    (drug_vecs : List String) (drug_lens : Option (List Int)) (prot_vec : String)
    (prot_len : Int)
    (hne : drug_vecs ≠ [])
    (hbad :
      (∃ row ∈ dti_dir, ∀ fr ∈ drug_dir, fr.id ≠ row.drug) ∨
      (∃ row ∈ dti_dir, ∀ fr ∈ protein_dir, fr.id ≠ row.protein) ∨
      (∃ fr ∈ protein_dir, ∃ cell, lookupCell prot_vec fr.cells = some cell ∧
        parseTabFloats cell = none) ∨
      (∃ v ∈ drug_vecs, ∃ col, getColumn drug_dir v = some col ∧
        ∃ row ∈ dti_dir, ∃ strs,
          pyDictGet (col.map (fun p => (p.1, splitTab p.2))) row.drug = some strs ∧
          optionMapList parseFloat? strs = none)) :
    isOkE (parse_data dti_dir drug_dir protein_dir drug_vecs drug_lens prot_vec prot_len true) =
      false := by
  cases hok : isOkE
      (parse_data dti_dir drug_dir protein_dir drug_vecs drug_lens prot_vec prot_len true) with
  | false => rfl
  | true =>
    exfalso
    obtain ⟨r, hr⟩ := isOkE_iff.mp hok
    obtain ⟨fs, hpf, -⟩ := parse_data_true_ok.mp hr
    obtain ⟨hdrugs, hprot⟩ := parseFeatures_ok_forall hpf
    rcases hbad with ⟨row, hrow, hmiss⟩ | ⟨row, hrow, hmiss⟩ |
      ⟨fr, hfr, cell, hcell, hbadp⟩ | ⟨v, hv, col, hc, row, hrow, strs, hget, hbadp⟩
    · obtain ⟨v0, hv0⟩ := List.exists_mem_of_ne_nil drug_vecs hne
      obtain ⟨df, hdf⟩ := hdrugs v0 hv0
      obtain ⟨fr, hfr, hid⟩ := drugFeature_ok_drug_ids hdf row hrow
      exact hmiss fr hfr hid
    · obtain ⟨pf, hpfk⟩ := hprot hne
      obtain ⟨fr, hfr, hid⟩ := proteinFeature_ok_protein_ids hpfk row hrow
      exact hmiss fr hfr hid
    · obtain ⟨pf, hpfk⟩ := hprot hne
      have hs := proteinFeature_ok_cells_parse hpfk fr hfr cell hcell
      rw [hbadp] at hs
      simp at hs
    · obtain ⟨df, hdf⟩ := hdrugs v hv
      have hs := drugFeature_ok_parses hc hdf row hrow strs hget
      rw [hbadp] at hs
      simp at hs

theorem parse_data_error_conditions_witness :
    (["fp"] : List String) ≠ [] ∧
    isOkE (parse_data [⟨"A", "X", 1⟩] [] [⟨"X", [("pv", "0")]⟩] ["fp"] none "pv" 2500 true) =
      false :=
  ⟨by decide,
    parse_data_error_conditions [⟨"A", "X", 1⟩] [] [⟨"X", [("pv", "0")]⟩] ["fp"] none "pv" 2500
      (by decide) (Or.inl ⟨⟨"A", "X", 1⟩, by decide, by decide⟩)⟩

theorem exceptMap_ok_spec {f : α → Except String β} :
    ∀ {l : List α} {ys : List β}, exceptMap f l = .ok ys →
      ys.length = l.length ∧
      ∀ (i : Nat) (x : α), l[i]? = some x → ∃ y, f x = .ok y ∧ ys[i]? = some y := by
  intro l
  induction l with
  | nil =>
    intro ys h
    simp only [exceptMap, Except.ok.injEq] at h
    subst h
    exact ⟨rfl, fun i x hx => by simp at hx⟩
  | cons a as ih =>
    intro ys h
    cases hfa : f a with
    | error e =>
      simp only [exceptMap, hfa] at h
      exact Except.noConfusion h
    | ok y =>
      cases hm : exceptMap f as with
      | error e =>
        simp only [exceptMap, hfa, hm] at h
        exact Except.noConfusion h
      | ok zs =>
        simp only [exceptMap, hfa, hm, Except.ok.injEq] at h
        subst h
        obtain ⟨hlen, hidx⟩ := ih hm
        refine ⟨by simp [hlen], ?_⟩
        intro i x hx
        cases i with
        | zero =>
          simp only [List.getElem?_cons_zero, Option.some.injEq] at hx
          subst hx
          exact ⟨y, hfa, by simp⟩
        | succ j =>
          simp only [List.getElem?_cons_succ] at hx
          obtain ⟨z, hz1, hz2⟩ := hidx j x hx
          exact ⟨z, hz1, by simpa using hz2⟩

theorem exceptMapFn_ok {x : Except String α} {g : α → β} {y : β} :
    x.map g = .ok y ↔ ∃ a, x = .ok a ∧ y = g a := by
  cases x with
  | error e =>
    constructor
    · intro h
      exact Except.noConfusion (show Except.error e = Except.ok y from h)
    · rintro ⟨a, ha, -⟩
      exact Except.noConfusion ha
  | ok a =>
    constructor
    · intro h
      have h' : Except.ok (g a) = Except.ok y := h
      injection h' with h'
      exact ⟨a, rfl, h'.symm⟩
    · rintro ⟨a', ha', hy⟩
      injection ha' with e
      subst e
      subst hy
      rfl

theorem get_params_ok_parts {args : Args} {out : GetParamsResult}
    (h : get_params args = .ok out) :
    ∃ dls, args.drug_layers_list = some dls ∧
    ∃ drug_layers, exceptMap parseLayers dls = .ok drug_layers ∧
    ∃ pls, args.protein_layers_list = some pls ∧
    ∃ protein_layers, exceptMap parseLayers pls = .ok protein_layers ∧
    ∃ fls, args.fc_layers_list = some fls ∧
    ∃ fc_layers, exceptMap parseLayers fls = .ok fc_layers ∧
    ∃ train_dic, parse_data args.dti_dir args.drug_dir args.protein_dir args.drug_vecs
        args.drug_lens args.prot_vec args.prot_len args.parsing_train = .ok train_dic ∧
    ∃ names, args.test_name = some names ∧
    ∃ tdtis, args.test_dti_dir = some tdtis ∧
    ∃ tdrugs, args.test_drug_dir = some tdrugs ∧
    ∃ tprots, args.test_protein_dir = some tprots ∧
    ∃ test_dic, buildTestDic ⟨args.drug_vecs, args.drug_lens, args.prot_vec, args.prot_len⟩ []
        (zip4 names tdtis tdrugs tprots) = .ok test_dic ∧
    out = ⟨train_dic, test_dic, ⟨args.n_epoch, args.batch_size⟩,
      ⟨args.drug_vecs, args.drug_lens, args.prot_vec, args.prot_len⟩,
      ⟨drug_layers, protein_layers, fc_layers, args.learning_rate, args.decay,
        args.activation, args.dropout, args.model_output,
        args.drug_vecs, args.drug_lens, args.prot_vec, args.prot_len⟩,
      args.output⟩ := by
  unfold get_params at h
  obtain ⟨dls, ha, h⟩ := exceptBind_ok.mp h
  obtain ⟨drug_layers, hb, h⟩ := exceptBind_ok.mp h
  obtain ⟨pls, hc, h⟩ := exceptBind_ok.mp h
  obtain ⟨protein_layers, hd, h⟩ := exceptBind_ok.mp h
  obtain ⟨fls, he, h⟩ := exceptBind_ok.mp h
  obtain ⟨fc_layers, hf, h⟩ := exceptBind_ok.mp h
  obtain ⟨train_dic, hg, h⟩ := exceptBind_ok.mp h
  obtain ⟨names, hh, h⟩ := exceptBind_ok.mp h
  obtain ⟨tdtis, hi, h⟩ := exceptBind_ok.mp h
  obtain ⟨tdrugs, hj, h⟩ := exceptBind_ok.mp h
  obtain ⟨tprots, hk, h⟩ := exceptBind_ok.mp h
  obtain ⟨test_dic, hl, h⟩ := exceptBind_ok.mp h
  injection h with h
  exact ⟨dls, req_ok.mp ha, drug_layers, hb, pls, req_ok.mp hc, protein_layers, hd,
    fls, req_ok.mp he, fc_layers, hf, train_dic, hg, names, req_ok.mp hh,
    tdtis, req_ok.mp hi, tdrugs, req_ok.mp hj, tprots, req_ok.mp hk,
    test_dic, hl, h.symm⟩

theorem dictInsert_fresh {k : String} {v : α} :
    ∀ {acc : List (String × α)}, (∀ p ∈ acc, p.1 ≠ k) → dictInsert k v acc = acc ++ [(k, v)] := by
  intro acc
  induction acc with
  | nil => intro _; rfl
  | cons p rest ih =>
    intro hfresh
    obtain ⟨k', v'⟩ := p
    have hne : k' ≠ k := hfresh (k', v') (List.mem_cons_self _ _)
    simp only [dictInsert, if_neg hne, List.cons_append]
    rw [ih (fun q hq => hfresh q (List.mem_cons_of_mem _ hq))]

theorem buildTestDic_nodup {tp : TypeParams} :
    ∀ {quads : List (String × List DTIRow × List FeatRow × List FeatRow)}
      {acc res : List (String × ParseResult)},
      (quads.map (fun q => q.1)).Nodup →
      (∀ p ∈ acc, ∀ q ∈ quads, p.1 ≠ q.1) →
      buildTestDic tp acc quads = .ok res →
      ∃ parsed, exceptMap (fun q =>
          (parse_data q.2.1 q.2.2.1 q.2.2.2 tp.drug_vecs tp.drug_lens tp.prot_vec tp.prot_len
            true).map (fun r => (q.1, r))) quads = .ok parsed ∧
        res = acc ++ parsed := by
  intro quads
  induction quads with
  | nil =>
    intro acc res _ _ h
    simp only [buildTestDic, Except.ok.injEq] at h
    subst h
    exact ⟨[], rfl, by simp⟩
  | cons q rest ih =>
    intro acc res hnodup hfresh h
    obtain ⟨n, ti, td, tpr⟩ := q
    cases hp : parse_data ti td tpr tp.drug_vecs tp.drug_lens tp.prot_vec tp.prot_len true with
    | error e =>
      simp only [buildTestDic, hp] at h
      exact Except.noConfusion h
    | ok r =>
      simp only [buildTestDic, hp] at h
      simp only [List.map_cons, List.nodup_cons] at hnodup
      obtain ⟨hhead, htail⟩ := hnodup
      have hacc : dictInsert n r acc = acc ++ [(n, r)] :=
        dictInsert_fresh (fun p hp' =>
          hfresh p hp' (n, ti, td, tpr) (List.mem_cons_self _ _))
      rw [hacc] at h
      have hfresh' : ∀ p ∈ acc ++ [(n, r)], ∀ q' ∈ rest, p.1 ≠ q'.1 := by
        intro p hp' q' hq'
        rcases List.mem_append.mp hp' with hin | hin
        · exact hfresh p hin q' (List.mem_cons_of_mem _ hq')
        · have : p = (n, r) := List.mem_singleton.mp hin
          subst this
          intro he
          have hm : q'.1 ∈ List.map (fun q => q.1) rest :=
            List.mem_map_of_mem (fun q => q.1) hq'
          rw [← he] at hm
          exact hhead hm
      obtain ⟨parsed, hmap, hres⟩ := ih htail hfresh' h
      refine ⟨(n, r) :: parsed, ?_, ?_⟩
      · simp only [exceptMap]
        rw [show (parse_data ti td tpr tp.drug_vecs tp.drug_lens tp.prot_vec tp.prot_len
            true).map (fun r => ((n : String), r)) = .ok (n, r) from by rw [hp]; rfl]
        rw [hmap]
      · rw [hres, List.append_assoc]
        rfl

theorem zip4_length :
    ∀ (as : List α) (bs : List β) (cs : List γ) (ds : List δ),
      (zip4 as bs cs ds).length = min (min as.length bs.length) (min cs.length ds.length) := by
  intro as
  induction as with
  | nil =>
    intro bs cs ds
    simp [zip4]
  | cons a as ih =>
    intro bs cs ds
    cases bs with
    | nil => simp [zip4]
    | cons b bs =>
      cases cs with
      | nil => simp [zip4]
      | cons c cs =>
        cases ds with
        | nil => simp [zip4]
        | cons d ds =>
          simp only [zip4, List.length_cons, ih]
          omega

/-- C5: for any argument set accepted by `get_params`, the three layer-list
descriptors of `model_params` are obtained by parsing each supplied
comma-separated layer-size string into the list of its integers, and in
particular the string "100,50,10" parses to [100,50,10]. -/
theorem get_params_parses_layer_lists :
    parseLayers "100,50,10" = .ok [100, 50, 10] ∧
    ∀ (args : Args) (out : GetParamsResult), get_params args = .ok out →
      (∃ ds, args.drug_layers_list = some ds ∧
        parsesEachLayer ds out.model_params.drug_layers_list) ∧
      (∃ ps, args.protein_layers_list = some ps ∧
        parsesEachLayer ps out.model_params.protein_layers_list) ∧
      (∃ fs, args.fc_layers_list = some fs ∧
        parsesEachLayer fs out.model_params.fc_layers_list) := by
  refine ⟨rfl, ?_⟩
  intro args out h
  obtain ⟨dls, h1, drug_layers, h1b, pls, h2, protein_layers, h2b, fls, h3, fc_layers, h3b,
    train_dic, -, names, -, tdtis, -, tdrugs, -, tprots, -, test_dic, -, hout⟩ :=
    get_params_ok_parts h
  subst hout
  exact ⟨⟨dls, h1, exceptMap_ok_spec h1b⟩, ⟨pls, h2, exceptMap_ok_spec h2b⟩,
    ⟨fls, h3, exceptMap_ok_spec h3b⟩⟩

theorem get_params_parses_layer_lists_witness :
    (∃ ds, (some ["100,50,10"] : Option (List String)) = some ds ∧
      parsesEachLayer ds [[100, 50, 10]]) ∧
    (∃ ps, (some ["10"] : Option (List String)) = some ps ∧ parsesEachLayer ps [[10]]) ∧
    (∃ fs, (some ["5"] : Option (List String)) = some fs ∧ parsesEachLayer fs [[5]]) :=
  get_params_parses_layer_lists.2
    { dti_dir := [], drug_dir := [], protein_dir := [], test_name := some [],
      test_dti_dir := some [], test_drug_dir := some [], test_protein_dir := some [],
      drug_layers_list := some ["100,50,10"], protein_layers_list := some ["10"],
      fc_layers_list := some ["5"] }
    ⟨⟨[], []⟩, [], ⟨10, 32⟩, ⟨[], none, "", 2500⟩,
      ⟨[[100, 50, 10]], [[10]], [[5]], 1 / 10000, 0, none, 2 / 10, none, [], none, "", 2500⟩,
      none⟩ rfl

/-- C6 counterexample: with the duplicated test name list ["A","A"] and
four argument lists of length 2, the zipped quadruples number 2 but the
resulting test-set mapping holds a single entry, because the dict
comprehension overwrites the repeated key. -/
theorem get_params_duplicate_test_names :
    (get_params
      { dti_dir := [], drug_dir := [], protein_dir := [],
        test_name := some ["A", "A"], test_dti_dir := some [[], []],
        test_drug_dir := some [[], []], test_protein_dir := some [[], []],
        drug_layers_list := some [], protein_layers_list := some [],
        fc_layers_list := some [] }).map (fun o => o.test_dic.length) = .ok 1 ∧
    (zip4 ["A", "A"] ([[], []] : List (List DTIRow)) ([[], []] : List (List FeatRow))
      ([[], []] : List (List FeatRow))).length = 2 :=
  ⟨rfl, rfl⟩

/-- C6 (amended): `get_params` builds the test-set mapping by positionally
zipping the four test argument lists, truncating silently to the shortest
list, each entry parsed with the training feature-type descriptor and
keyed by the test name with Python-dict overwrite semantics; when the
zipped names are pairwise distinct the mapping has exactly one entry per
zipped position, in order, while a repeated name collapses its positions
into one entry. -/
theorem get_params_test_sets_zip
    (args : Args) (out : GetParamsResult)
    (names : List String) (tdtis : List (List DTIRow)) (tdrugs tprots : List (List FeatRow))
    (hn : args.test_name = some names) (hi : args.test_dti_dir = some tdtis)
    (hd : args.test_drug_dir = some tdrugs) (hp : args.test_protein_dir = some tprots)
    (hnodup : ((zip4 names tdtis tdrugs tprots).map (fun q => q.1)).Nodup)
    (h : get_params args = .ok out) :
    out.test_dic.length = (zip4 names tdtis tdrugs tprots).length ∧
    (zip4 names tdtis tdrugs tprots).length =
      min (min names.length tdtis.length) (min tdrugs.length tprots.length) ∧
    ∀ (i : Nat) q, (zip4 names tdtis tdrugs tprots)[i]? = some q →
      ∃ r, parse_data q.2.1 q.2.2.1 q.2.2.2 args.drug_vecs args.drug_lens args.prot_vec
          args.prot_len true = .ok r ∧
        out.test_dic[i]? = some (q.1, r) := by
  obtain ⟨dls, h1, drug_layers, h1b, pls, h2, protein_layers, h2b, fls, h3, fc_layers, h3b,
    train_dic, htd, names', h4, tdtis', h5, tdrugs', h6, tprots', h7, test_dic, h8, hout⟩ :=
    get_params_ok_parts h
  rw [hn] at h4
  injection h4 with e1
  subst e1
  rw [hi] at h5
  injection h5 with e2
  subst e2
  rw [hd] at h6
  injection h6 with e3
  subst e3
  rw [hp] at h7
  injection h7 with e4
  subst e4
  subst hout
  obtain ⟨parsed, hmap, hres⟩ :=
    buildTestDic_nodup hnodup (fun p hp' => absurd hp' (List.not_mem_nil p)) h8
  rw [List.nil_append] at hres
  subst hres
  obtain ⟨hlen, hidx⟩ := exceptMap_ok_spec hmap
  refine ⟨hlen, zip4_length names tdtis tdrugs tprots, ?_⟩
  intro i q hq
  obtain ⟨y, hy, hyi⟩ := hidx i q hq
  obtain ⟨r, hr, hyr⟩ := exceptMapFn_ok.mp hy
  subst hyr
  exact ⟨r, hr, hyi⟩

theorem get_params_test_sets_zip_witness :
    ([("T", (⟨[], []⟩ : ParseResult))] : List (String × ParseResult)).length =
      (zip4 ["T"] ([[]] : List (List DTIRow)) ([[]] : List (List FeatRow))
        ([[]] : List (List FeatRow))).length ∧
    (zip4 ["T"] ([[]] : List (List DTIRow)) ([[]] : List (List FeatRow))
        ([[]] : List (List FeatRow))).length =
      min (min (["T"] : List String).length ([[]] : List (List DTIRow)).length)
        (min ([[]] : List (List FeatRow)).length ([[]] : List (List FeatRow)).length) ∧
    ∀ (i : Nat) q, (zip4 ["T"] ([[]] : List (List DTIRow)) ([[]] : List (List FeatRow))
        ([[]] : List (List FeatRow)))[i]? = some q →
      ∃ r, parse_data q.2.1 q.2.2.1 q.2.2.2 [] none "" 2500 true = .ok r ∧
        ([("T", (⟨[], []⟩ : ParseResult))] : List (String × ParseResult))[i]? =
          some (q.1, r) :=
  get_params_test_sets_zip
    { dti_dir := [], drug_dir := [], protein_dir := [], test_name := some ["T"],
      test_dti_dir := some [[]], test_drug_dir := some [[]],
      test_protein_dir := some [[]], drug_layers_list := some [],
      protein_layers_list := some [], fc_layers_list := some [] }
    ⟨⟨[], []⟩, [("T", ⟨[], []⟩)], ⟨10, 32⟩, ⟨[], none, "", 2500⟩,
      ⟨[], [], [], 1 / 10000, 0, none, 2 / 10, none, [], none, "", 2500⟩, none⟩
    ["T"] [[]] [[]] [[]] rfl rfl rfl rfl (by decide) rfl

/-- C10: the optional test-set arguments and the three layer-list
arguments default to `None` when omitted; with any of them still `None`,
`get_params` raises (`TypeError` on iterating or zipping `None`) instead
of producing an empty test-set mapping or empty architecture
descriptor. -/
theorem get_params_none_arguments :
    (∀ (d : List DTIRow) (dr pr : List FeatRow),
      ({ dti_dir := d, drug_dir := dr, protein_dir := pr } : Args).test_name = none ∧
      ({ dti_dir := d, drug_dir := dr, protein_dir := pr } : Args).test_dti_dir = none ∧
      ({ dti_dir := d, drug_dir := dr, protein_dir := pr } : Args).test_drug_dir = none ∧
      ({ dti_dir := d, drug_dir := dr, protein_dir := pr } : Args).test_protein_dir = none ∧
      ({ dti_dir := d, drug_dir := dr, protein_dir := pr } : Args).drug_layers_list = none ∧
      ({ dti_dir := d, drug_dir := dr, protein_dir := pr } : Args).protein_layers_list = none ∧
      ({ dti_dir := d, drug_dir := dr, protein_dir := pr } : Args).fc_layers_list = none) ∧
    (∀ args : Args,
      args.test_name = none ∨ args.test_dti_dir = none ∨ args.test_drug_dir = none ∨
        args.test_protein_dir = none ∨ args.drug_layers_list = none ∨
        args.protein_layers_list = none ∨ args.fc_layers_list = none →
      isOkE (get_params args) = false) := by
  constructor
  · intro d dr pr
    exact ⟨rfl, rfl, rfl, rfl, rfl, rfl, rfl⟩
  · intro args hnone
    cases hok : isOkE (get_params args) with
    | false => rfl
    | true =>
      exfalso
      obtain ⟨out, hout⟩ := isOkE_iff.mp hok
      obtain ⟨dls, h1, drug_layers, -, pls, h2, protein_layers, -, fls, h3, fc_layers, -,
        train_dic, -, names, h4, tdtis, h5, tdrugs, h6, tprots, h7, test_dic, -, -⟩ :=
        get_params_ok_parts hout
      rcases hnone with h | h | h | h | h | h | h
      · rw [h] at h4; exact Option.noConfusion h4
      · rw [h] at h5; exact Option.noConfusion h5
      · rw [h] at h6; exact Option.noConfusion h6
      · rw [h] at h7; exact Option.noConfusion h7
      · rw [h] at h1; exact Option.noConfusion h1
      · rw [h] at h2; exact Option.noConfusion h2
      · rw [h] at h3; exact Option.noConfusion h3

theorem get_params_none_arguments_witness :
    ({ dti_dir := [], drug_dir := [], protein_dir := [] } : Args).test_name = none ∧
    isOkE (get_params { dti_dir := [], drug_dir := [], protein_dir := [] }) = false :=
  ⟨rfl, get_params_none_arguments.2 { dti_dir := [], drug_dir := [], protein_dir := [] }
    (Or.inl rfl)⟩

theorem build_result_cons_columns (name : String) (e : TestPrediction)
    (rest : List (String × TestPrediction)) :
    (build_result ((name, e) :: rest)).columns =
      (name, "predicted") :: (name, "label") :: (build_result rest).columns := rfl

theorem build_result_cons_data (name : String) (e : TestPrediction)
    (rest : List (String × TestPrediction)) :
    (build_result ((name, e) :: rest)).data =
      np_squeeze e.predicted :: np_squeeze e.label :: (build_result rest).data := rfl

theorem build_result_spec :
    ∀ tp : List (String × TestPrediction),
      (build_result tp).columns.length = 2 * tp.length ∧
      (build_result tp).data.length = 2 * tp.length ∧
      ∀ (i : Nat), i < tp.length →
        (build_result tp).columns[2 * i]? = (tp[i]?).map (fun q => (q.1, "predicted")) ∧
        (build_result tp).columns[2 * i + 1]? = (tp[i]?).map (fun q => (q.1, "label")) ∧
        (build_result tp).data[2 * i]? = (tp[i]?).map (fun q => np_squeeze q.2.predicted) ∧
        (build_result tp).data[2 * i + 1]? = (tp[i]?).map (fun q => np_squeeze q.2.label) := by
  intro tp
  induction tp with
  | nil => exact ⟨rfl, rfl, fun i hi => absurd hi (Nat.not_lt_zero i)⟩
  | cons e rest ih =>
    obtain ⟨name, p⟩ := e
    obtain ⟨hc, hd, hidx⟩ := ih
    refine ⟨?_, ?_, ?_⟩
    · rw [build_result_cons_columns]
      simp only [List.length_cons, hc]
      ring
    · rw [build_result_cons_data]
      simp only [List.length_cons, hd]
      ring
    · intro i hi
      cases i with
      | zero =>
        refine ⟨?_, ?_, ?_, ?_⟩ <;>
          simp [build_result_cons_columns, build_result_cons_data]
      | succ j =>
        have hj : j < rest.length := by simpa using hi
        obtain ⟨k1, k2, k3, k4⟩ := hidx j hj
        have he : 2 * (j + 1) = 2 * j + 1 + 1 := by ring
        have he2 : 2 * (j + 1) + 1 = 2 * j + 1 + 1 + 1 := by ring
        refine ⟨?_, ?_, ?_, ?_⟩
        · rw [build_result_cons_columns, he, List.getElem?_cons_succ, List.getElem?_cons_succ,
            k1, List.getElem?_cons_succ]
        · rw [build_result_cons_columns, he2, List.getElem?_cons_succ, List.getElem?_cons_succ,
            k2, List.getElem?_cons_succ]
        · rw [build_result_cons_data, he, List.getElem?_cons_succ, List.getElem?_cons_succ,
            k3, List.getElem?_cons_succ]
        · rw [build_result_cons_data, he2, List.getElem?_cons_succ, List.getElem?_cons_succ,
            k4, List.getElem?_cons_succ]

/-- C7 counterexample: an output path is supplied (the empty string), so
the claim requires the table to be written, yet `run_prediction` skips
persistence because `if output_file:` is false for `""`. -/
theorem run_prediction_empty_path_skips :
    (some "" : Option String).isSome = true ∧
    run_prediction_output [("A", ⟨[1 / 10, 9 / 10], [0, 1]⟩)] (some "") = none :=
  ⟨rfl, rfl⟩

/-- C7 (amended): the Result Writer builds one wide table with exactly two
columns per test set, labeled by the two-level scheme (test-set name, then
"predicted" or "label") in input order with row order preserved; it writes
the table if and only if a non-empty output path was supplied, and with no
path or an empty path it skips persistence without error.  For the single
test set "A" with predicted=[0.1,0.9] and label=[0,1] the written table
has the columns (A,predicted) and (A,label) with exactly those values. -/
theorem run_prediction_writes_table (test_predicted : List (String × TestPrediction)) :
    run_prediction_output test_predicted none = none ∧
    run_prediction_output test_predicted (some "") = none ∧
    run_prediction_output [("A", ⟨[1 / 10, 9 / 10], [0, 1]⟩)] (some "out.csv") =
      some ("out.csv",
        ⟨[("A", "predicted"), ("A", "label")], [[1 / 10, 9 / 10], [0, 1]]⟩) ∧
    ∀ path : String, path ≠ "" →
      run_prediction_output test_predicted (some path) =
        some (path, build_result test_predicted) ∧
      (build_result test_predicted).columns.length = 2 * test_predicted.length ∧
      (build_result test_predicted).data.length = 2 * test_predicted.length ∧
      ∀ (i : Nat), i < test_predicted.length →
        (build_result test_predicted).columns[2 * i]? =
          (test_predicted[i]?).map (fun q => (q.1, "predicted")) ∧
        (build_result test_predicted).columns[2 * i + 1]? =
          (test_predicted[i]?).map (fun q => (q.1, "label")) ∧
        (build_result test_predicted).data[2 * i]? =
          (test_predicted[i]?).map (fun q => np_squeeze q.2.predicted) ∧
        (build_result test_predicted).data[2 * i + 1]? =
          (test_predicted[i]?).map (fun q => np_squeeze q.2.label) := by
  refine ⟨rfl, rfl, rfl, ?_⟩
  intro path hpath
  obtain ⟨hc, hd, hidx⟩ := build_result_spec test_predicted
  refine ⟨?_, hc, hd, hidx⟩
  simp [run_prediction_output, hpath]

theorem run_prediction_writes_table_witness :
    ("x.csv" : String) ≠ "" ∧
    run_prediction_output [("A", (⟨[1 / 10, 9 / 10], [0, 1]⟩ : TestPrediction))]
      (some "x.csv") =
      some ("x.csv", build_result [("A", ⟨[1 / 10, 9 / 10], [0, 1]⟩)]) :=
  ⟨by decide,
    ((run_prediction_writes_table [("A", ⟨[1 / 10, 9 / 10], [0, 1]⟩)]).2.2.2 "x.csv"
      (by decide)).1⟩
